import Mathlib

/-!
Verification of the job-ingestion pipeline of the my-job-hunter repository.

This file is a shallow embedding of the TypeScript sources into Lean 4:

* src/src/ingestion/filters.ts           — passesRoleFilter
* src/unnamed/part_015 (normalizer.ts)   — normalizeCompany, normalizeTitle,
                                           descriptionFingerprint, buildCanonicalKey
* src/src/scoring/scorer.ts              — scoreJob (North-America keyword variant)
* src/unnamed/part_011 (scorer variant)  — scoreJob (Canada/US split variant)
* src/src/scoring/summarizer.ts          — shouldGenerateSummary
* src/unnamed/part_016 (orchestrator.ts) — insertNewJobs, scoreNewJobs, markStaleJobs
* src/src/db/queries.ts                  — queryJobsInterleaved
* src/src/db/schema.ts                   — the jobs table row shape and column defaults

Modelling conventions:

* The Postgres jobs table is a list of rows in insertion order together with the
  next value of the id sequence.  A SELECT ... LIMIT 1 without ORDER BY leaves
  the returned row unspecified; the model makes that explicit: insertOneChoosing
  resolves the dedup lookup through a choice function over the list of matching
  rows (any of which is an SQL-legal result), and insertOne is its
  first-candidate (insertion-order) determinization.
* JavaScript numbers are modelled as exact rationals (the type Q below).  Every
  numeric constant appearing in the scoring configuration and the scoring
  formula is exactly representable, and toFixed(2) is modelled as exact decimal
  rounding.  A dedicated executable rational type is used so that concrete
  runs of the pipeline can be evaluated inside proofs by kernel reduction.
* JavaScript string operations are modelled on the underlying character lists;
  toLowerCase is modelled on ASCII letters, which covers every keyword and
  constant appearing in the sources.
* JavaScript truthiness tests on optional strings and numeric ids are modelled
  explicitly (undefined and the empty string are falsy; 0 is falsy).
* External services (the metadata-extraction call, the summarization call) are
  modelled as oracle function parameters; database persistence is modelled as
  pure state passing.
-/

/-! ## Exact rationals (JavaScript numbers in the scoring formula) -/

/-- Exact rational number, kept normalized (gcd of numerator and denominator is
one, denominator positive).  Used to model the JavaScript floating point
numbers of the scoring formula; every constant in the scoring configuration and
every value compared in the claims is exactly representable. -/
structure Q where
  num : Int
  den : Nat
deriving DecidableEq

/-- Build a normalized rational from an integer numerator and denominator. -/
def mkQ (n d : Int) : Q :=
  if d = 0 then ⟨0, 1⟩
  else
    let s : Int := if d < 0 then -1 else 1
    let n2 := s * n
    let d2 := (s * d).toNat
    let g := n2.gcd d2
    ⟨n2 / (g : Int), d2 / g⟩

instance (n : Nat) : OfNat Q n := ⟨⟨n, 1⟩⟩

def Q.add (a b : Q) : Q := mkQ (a.num * b.den + b.num * a.den) (a.den * b.den)

def Q.mul (a b : Q) : Q := mkQ (a.num * b.num) (a.den * b.den)

def Q.div (a b : Q) : Q := mkQ (a.num * b.den) (a.den * b.num)

/-- Less-or-equal on exact rationals (denominators are positive). -/
def Q.ble (a b : Q) : Bool := a.num * b.den ≤ b.num * a.den

/-- Strictly-less on exact rationals. -/
def Q.blt (a b : Q) : Bool := a.num * b.den < b.num * a.den

/-- Model of the JavaScript idiom +(x).toFixed(2): round to two decimal places.
Rounds half up, which agrees with toFixed on every value arising here (all of
them non-negative, and none of the claims touches a tie). -/
def jsToFixed2 (q : Q) : Q :=
  mkQ (Int.fdiv (200 * q.num + q.den) (2 * q.den)) 100

/-! ## Character and string helpers -/

def dotChar : Char := Char.ofNat 46
def commaChar : Char := Char.ofNat 44
def spaceChar : Char := Char.ofNat 32
def underscoreChar : Char := Char.ofNat 95

/-- ASCII lowercasing of one character (String.prototype.toLowerCase restricted
to ASCII, which covers all keywords and constants in the sources). -/
def lowerChar (c : Char) : Char :=
  if 65 ≤ c.toNat && c.toNat ≤ 90 then Char.ofNat (c.toNat + 32) else c

/-- Model of s.toLowerCase(). -/
def lowerStr (s : String) : String := String.mk (s.data.map lowerChar)

/-- If pat is a leading segment of cs, return the rest of cs. -/
def stripLead : List Char → List Char → Option (List Char)
  | [], rest => some rest
  | _, [] => none
  | c :: cs, d :: ds => if c == d then stripLead cs ds else none

/-- Model of haystack.includes(needle) on character lists: contiguous substring
test. -/
def infixHit (pat : List Char) : List Char → Bool
  | [] => (stripLead pat []).isSome
  | c :: cs => (stripLead pat (c :: cs)).isSome || infixHit pat cs

/-- Model of a.includes(b) for strings. -/
def strIncludes (s sub : String) : Bool := infixHit sub.data s.data

/-- JavaScript truthiness of an optional string: undefined and the empty string
are falsy. -/
def truthyStr : Option String → Bool
  | none => false
  | some s => !(s == "")

/-- JavaScript truthiness of an optional numeric id: undefined and 0 are
falsy. -/
def truthyId : Option Nat → Bool
  | none => false
  | some n => !(n == 0)

/-- Model of the regex replacement target of /\s+/g: collapse every whitespace
run to a single space.  The Boolean argument records whether the previous input
character was whitespace. -/
def collapseWs : Bool → List Char → List Char
  | _, [] => []
  | inRun, c :: cs =>
    if c.isWhitespace then
      if inRun then collapseWs true cs
      else spaceChar :: collapseWs true cs
    else c :: collapseWs false cs

/-- Model of String.prototype.trim(): drop leading and trailing whitespace. -/
def jsTrim (cs : List Char) : List Char :=
  ((cs.dropWhile Char.isWhitespace).reverse.dropWhile Char.isWhitespace).reverse

/-! ## The normalizer regex substitutions (src/unnamed/part_015, normalizer.ts)

The company and title normalizers use regexes of the shape
/\b(alt1|alt2|...)\b/g where each alternative is a literal word, optionally
followed by an optional dot (for example inc\.?).  The little engine below
implements exactly that fragment of JavaScript regex semantics: a word
character is [A-Za-z0-9_], a word boundary holds where exactly one side is a
word character, alternatives are tried in source order, an optional dot is
matched greedily with backtracking against the trailing boundary, matches are
non-overlapping and scanned left to right, and boundaries are computed on the
input string (replacements never rejoin the scan). -/

/-- Regex word character test: [A-Za-z0-9_]. -/
def wordChar (c : Char) : Bool := c.isAlpha || c.isDigit || c == underscoreChar

/-- One alternative of the alternation: a literal character list, optionally
followed by \.? . -/
structure SuffixAlt where
  word : List Char
  optDot : Bool

/-- Does a word boundary hold between a match ending in lastC and the remaining
input? -/
def boundaryAfter (lastC : Char) (rest : List Char) : Bool :=
  match rest with
  | [] => wordChar lastC
  | c :: _ => wordChar lastC != wordChar c

/-- Try one alternative at the current position.  Returns the number of
consumed characters and the last consumed character.  The optional dot is tried
greedily first, backtracking if the trailing word boundary fails. -/
def altMatch (alt : SuffixAlt) (rest : List Char) : Option (Nat × Char) :=
  match stripLead alt.word rest with
  | none => none
  | some rem =>
    let lastW := alt.word.getLastD underscoreChar
    let plain : Option (Nat × Char) :=
      if boundaryAfter lastW rem then some (alt.word.length, lastW) else none
    if alt.optDot then
      match rem with
      | c :: rem2 =>
        if c == dotChar then
          if boundaryAfter dotChar rem2 then some (alt.word.length + 1, dotChar)
          else plain
        else plain
      | [] => plain
    else plain

/-- First alternative (in source order) that matches at the current
position. -/
def firstAltHit : List SuffixAlt → List Char → Option (Nat × Char)
  | [], _ => none
  | a :: rest, cs =>
    match altMatch a cs with
    | some r => some r
    | none => firstAltHit rest cs

/-- Global replacement scan.  The fuel argument bounds the recursion (each step
consumes at least one input character, so an initial fuel of the input length
suffices); the Boolean records whether the previous input character was a word
character (for the leading boundary). -/
def replaceAltsAux (alts : List SuffixAlt) (repl : List Char) :
    Nat → Bool → List Char → List Char
  | 0, _, cs => cs
  | _ + 1, _, [] => []
  | fuel + 1, prevW, c :: cs =>
    if prevW then c :: replaceAltsAux alts repl fuel (wordChar c) cs
    else
      match firstAltHit alts (c :: cs) with
      | some (n, lastC) =>
        repl ++ replaceAltsAux alts repl fuel (wordChar lastC) ((c :: cs).drop n)
      | none => c :: replaceAltsAux alts repl fuel (wordChar c) cs

/-- Model of s.replace(/\b(alt1|alt2|...)\b/g, repl). -/
def replaceAlts (alts : List SuffixAlt) (repl : List Char) (cs : List Char) :
    List Char :=
  replaceAltsAux alts repl (cs.length + 1) false cs

/-- The legal-entity suffix alternation of normalizeCompany, in source order:
inc\.? incorporated ltd\.? limited corp\.? corporation llc l\.l\.c\. co\.?
company. -/
def companySuffixAlts : List SuffixAlt :=
  [ ⟨"inc".data, true⟩, ⟨"incorporated".data, false⟩,
    ⟨"ltd".data, true⟩, ⟨"limited".data, false⟩,
    ⟨"corp".data, true⟩, ⟨"corporation".data, false⟩,
    ⟨"llc".data, false⟩, ⟨"l.l.c.".data, false⟩,
    ⟨"co".data, true⟩, ⟨"company".data, false⟩ ]

/-- Normalize company name for dedup: lowercase, strip legal-entity suffixes as
whole words, strip commas and periods, collapse whitespace, trim
(normalizeCompany in normalizer.ts). -/
def normalizeCompany (name : String) : String :=
  let s1 := (lowerStr name).data
  let s2 := replaceAlts companySuffixAlts [] s1
  let s3 := s2.filter (fun c => !(c == dotChar || c == commaChar))
  String.mk (jsTrim (collapseWs false s3))

/-- Normalize title for dedup: lowercase, expand sr/jr abbreviations as whole
words, collapse whitespace, trim (normalizeTitle in normalizer.ts). -/
def normalizeTitle (title : String) : String :=
  let s1 := (lowerStr title).data
  let s2 := replaceAlts [⟨"sr".data, true⟩] "senior".data s1
  let s3 := replaceAlts [⟨"jr".data, true⟩] "junior".data s2
  String.mk (jsTrim (collapseWs false s3))

/-! ## SHA-256 (node:crypto createHash used by descriptionFingerprint) -/

/-- Keep the low 32 bits. -/
def w32 (n : Nat) : Nat := n % 4294967296

def add32 (a b : Nat) : Nat := w32 (a + b)

def rotr32 (n a : Nat) : Nat := Nat.lor (a >>> n) (w32 (a <<< (32 - n)))

def not32 (a : Nat) : Nat := Nat.xor a 4294967295

def chV (x y z : Nat) : Nat := Nat.xor (Nat.land x y) (Nat.land (not32 x) z)

def majV (x y z : Nat) : Nat :=
  Nat.xor (Nat.xor (Nat.land x y) (Nat.land x z)) (Nat.land y z)

def bigSigma0 (x : Nat) : Nat :=
  Nat.xor (Nat.xor (rotr32 2 x) (rotr32 13 x)) (rotr32 22 x)

def bigSigma1 (x : Nat) : Nat :=
  Nat.xor (Nat.xor (rotr32 6 x) (rotr32 11 x)) (rotr32 25 x)

def smallSigma0 (x : Nat) : Nat :=
  Nat.xor (Nat.xor (rotr32 7 x) (rotr32 18 x)) (x >>> 3)

def smallSigma1 (x : Nat) : Nat :=
  Nat.xor (Nat.xor (rotr32 17 x) (rotr32 19 x)) (x >>> 10)

/-- The SHA-256 round constants. -/
def sha256K : List Nat :=
  [ 1116352408, 1899447441, 3049323471, 3921009573, 961987163, 1508970993,
    2453635748, 2870763221, 3624381080, 310598401, 607225278, 1426881987,
    1925078388, 2162078206, 2614888103, 3248222580, 3835390401, 4022224774,
    264347078, 604807628, 770255983, 1249150122, 1555081692, 1996064986,
    2554220882, 2821834349, 2952996808, 3210313671, 3336571891, 3584528711,
    113926993, 338241895, 666307205, 773529912, 1294757372, 1396182291,
    1695183700, 1986661051, 2177026350, 2456956037, 2730485921, 2820302411,
    3259730800, 3345764771, 3516065817, 3600352804, 4094571909, 275423344,
    430227734, 506948616, 659060556, 883997877, 958139571, 1322822218,
    1537002063, 1747873779, 1955562222, 2024104815, 2227730452, 2361852424,
    2428436474, 2756734187, 3204031479, 3329325298 ]

/-- Big-endian byte decomposition of a number into k bytes. -/
def bytesBE (k n : Nat) : List Nat :=
  (List.range k).map (fun i => (n >>> (8 * (k - 1 - i))) % 256)

/-- SHA-256 padding: append 0x80, zeros, and the 64-bit big-endian bit
length, reaching a multiple of 64 bytes. -/
def sha256pad (msg : List Nat) : List Nat :=
  let len := msg.length
  let zeros := (55 + 64 - len % 64) % 64
  msg ++ [128] ++ List.replicate zeros 0 ++ bytesBE 8 (len * 8)

/-- Group 4 big-endian bytes into one 32-bit word. -/
def wordsOfBytes : List Nat → List Nat
  | a :: b :: c :: d :: rest => (((a * 256 + b) * 256 + c) * 256 + d) :: wordsOfBytes rest
  | _ => []

/-- Split a word list into blocks of 16 words. -/
def blocksOf16 : List Nat → List (List Nat)
  | [] => []
  | w :: ws => (w :: ws.take 15) :: blocksOf16 (ws.drop 15)
termination_by ws => ws.length
decreasing_by simp [List.length_drop]; omega

/-- The SHA-256 message schedule: 64 words extended from the 16 block words. -/
def msgSchedule (block : List Nat) : List Nat :=
  (List.range 64).foldl
    (fun wAcc i =>
      if i < 16 then wAcc ++ [block.getD i 0]
      else
        wAcc ++ [add32
          (add32 (smallSigma1 (wAcc.getD (i - 2) 0)) (wAcc.getD (i - 7) 0))
          (add32 (smallSigma0 (wAcc.getD (i - 15) 0)) (wAcc.getD (i - 16) 0))])
    []

/-- The eight 32-bit words of the SHA-256 state. -/
structure Hash8 where
  v0 : Nat
  v1 : Nat
  v2 : Nat
  v3 : Nat
  v4 : Nat
  v5 : Nat
  v6 : Nat
  v7 : Nat

/-- The SHA-256 initial state. -/
def sha256init : Hash8 :=
  ⟨1779033703, 3144134277, 1013904242, 2773480762,
   1359893119, 2600822924, 528734635, 1541459225⟩

/-- One SHA-256 compression round. -/
def sha256round (wSched : List Nat) (s : Hash8) (i : Nat) : Hash8 :=
  let t1 := add32 s.v7 (add32 (bigSigma1 s.v4)
    (add32 (chV s.v4 s.v5 s.v6) (add32 (sha256K.getD i 0) (wSched.getD i 0))))
  let t2 := add32 (bigSigma0 s.v0) (majV s.v0 s.v1 s.v2)
  ⟨add32 t1 t2, s.v0, s.v1, s.v2, add32 s.v3 t1, s.v4, s.v5, s.v6⟩

/-- SHA-256 compression of one 16-word block. -/
def sha256compress (h : Hash8) (block : List Nat) : Hash8 :=
  let wSched := msgSchedule block
  let s := (List.range 64).foldl (sha256round wSched) h
  ⟨add32 h.v0 s.v0, add32 h.v1 s.v1, add32 h.v2 s.v2, add32 h.v3 s.v3,
   add32 h.v4 s.v4, add32 h.v5 s.v5, add32 h.v6 s.v6, add32 h.v7 s.v7⟩

/-- SHA-256 of a byte list, as eight 32-bit words. -/
def sha256words (msg : List Nat) : List Nat :=
  let fin := (blocksOf16 (wordsOfBytes (sha256pad msg))).foldl sha256compress sha256init
  [fin.v0, fin.v1, fin.v2, fin.v3, fin.v4, fin.v5, fin.v6, fin.v7]

def hexDigitChar (d : Nat) : Char :=
  if d < 10 then Char.ofNat (48 + d) else Char.ofNat (87 + d)

/-- Lowercase hex rendering of one 32-bit word as exactly 8 characters. -/
def toHex8 (wv : Nat) : List Char :=
  (List.range 8).map (fun i => hexDigitChar ((wv >>> (4 * (7 - i))) % 16))

/-- The 64-character lowercase hex digest of SHA-256. -/
def sha256hex (msg : List Nat) : List Char :=
  ((sha256words msg).map toHex8).flatten

/-- UTF-8 encoding of one character. -/
def utf8Char (c : Char) : List Nat :=
  let n := c.toNat
  if n < 128 then [n]
  else if n < 2048 then [192 + n / 64, 128 + n % 64]
  else if n < 65536 then
    [224 + n / 4096, 128 + (n / 64) % 64, 128 + n % 64]
  else
    [240 + n / 262144, 128 + (n / 4096) % 64, 128 + (n / 64) % 64, 128 + n % 64]

/-- UTF-8 encoding of a string (node crypto hashes the UTF-8 bytes). -/
def utf8Bytes (s : String) : List Nat := (s.data.map utf8Char).flatten

/-! ## descriptionFingerprint and buildCanonicalKey (normalizer.ts) -/

/-- The normalization the fingerprint applies before hashing: lowercase,
collapse whitespace, trim, first 500 characters. -/
def descNormalize (d : String) : String :=
  String.mk ((jsTrim (collapseWs false (lowerStr d).data)).take 500)

/-- Short hash of the first 500 chars of the description; the sentinel constant
nodesc when no description exists (descriptionFingerprint in normalizer.ts; the
JavaScript truthiness test treats an empty description like a missing one). -/
def descriptionFingerprint (d : Option String) : String :=
  match d with
  | none => "nodesc"
  | some dsc =>
    if dsc == "" then "nodesc"
    else String.mk ((sha256hex (utf8Bytes (descNormalize dsc))).take 12)

/-- Cross-source canonical identity key (buildCanonicalKey in normalizer.ts). -/
def buildCanonicalKey (company title : String) (description : Option String) :
    String :=
  normalizeCompany company ++ "::" ++ normalizeTitle title ++ "::"
    ++ descriptionFingerprint description

example : normalizeCompany "Acme Inc." = "acme" := by decide
example : normalizeTitle "Sr Engineer" = "senior engineer" := by decide
example : normalizeCompany "Internal Co-op Ltd" = "internal -op" := by decide

/-! ## Role filter (src/src/ingestion/filters.ts) -/

/-- The raw posting shape produced by provider adapters (RawJob in
providers/base.ts; the free-form metadata map is not needed by any claim and is
omitted). -/
structure RawJob where
  externalId : String
  title : String
  company : String
  link : String
  description : Option String := none
  location : Option String := none
  remoteEligible : Option Bool := none
  seniority : Option String := none
  compensation : Option String := none

/-- The filters section of the providers configuration (FiltersConfig in
src/src/config/providers.ts). -/
structure FiltersConfig where
  exclude_titles : List String
  include_titles : List String
  location_keywords : List String := []
  remote_indicators : List String := []
  onsite_indicators : List String := []

/-- Role filter (passesRoleFilter in filters.ts): the lowercased title is
matched against the exclude list first (any case-insensitive substring match
rejects immediately), then against the include list (no match rejects). -/
def passesRoleFilter (job : RawJob) (filters : FiltersConfig) : Bool :=
  let title := lowerStr job.title
  if filters.exclude_titles.any (fun kw => strIncludes title (lowerStr kw)) then
    false
  else
    filters.include_titles.any (fun kw => strIncludes title (lowerStr kw))

/-! ## Scoring (src/src/scoring/scorer.ts, src/unnamed/part_011, summarizer.ts)

The scoring configuration is loaded by loadScoringConfig in
src/config/scoring.ts, which is not part of the provided sources; the example
configuration value below is modelled from the spec. -/

/-- Structured metadata extracted by the external analysis service (JobMetadata
in analyzer.ts).  The fromDefaults flag marks the conservative fallback tuple
returned when extraction fails. -/
structure JobMetadata where
  seniority : String
  remote_eligible : Bool
  interview_style : String
  role_type : String
  fromDefaults : Bool := false
deriving DecidableEq

/-- The five scoring weights. -/
structure ScoreWeights where
  remote_eligible : Q
  seniority_match : Q
  employer_location : Q
  interview_style : Q
  role_type : Q
deriving DecidableEq

/-- The scoring configuration (shape of the value returned by
loadScoringConfig; lookup tables are association lists, matching the JavaScript
object-indexing with an undefined fallback). -/
structure ScoringConfig where
  weights : ScoreWeights
  interview_preferences : List (String × Q)
  role_type_preferences : List (String × Q)
  target_seniority : List String

/-- The per-factor contributions (the breakdown record computed by scoreJob,
with its five fixed keys). -/
structure ScoreBreakdown where
  remote : Q
  seniority : Q
  employer_location : Q
  interview_style : Q
  role_type : Q
deriving DecidableEq

structure ScoreResult where
  score : Q
  breakdown : ScoreBreakdown
deriving DecidableEq

/-- Modelled from the spec: the example weight set and factor lookup tables of
the scoring configuration (spec section 6 and the score-formula boundary
example of section 8: weights remote 3.0, seniority 2.5, employer_location
1.5, interview_style 1.5, role_type 1.5).  The loader itself
(src/config/scoring.ts) is not among the provided sources; the value mirrors
the configuration used by the scorer unit tests. -/
def exampleScoringConfig : ScoringConfig :=
  { weights :=
      { remote_eligible := 3
        seniority_match := mkQ 5 2
        employer_location := mkQ 3 2
        interview_style := mkQ 3 2
        role_type := mkQ 3 2 }
    interview_preferences :=
      [("assignment", 1), ("unknown", mkQ 1 2), ("leetcode", 0)]
    role_type_preferences :=
      [("backend", 1), ("platform", 1), ("software_engineer", mkQ 4 5),
       ("fullstack", mkQ 3 10)]
    target_seniority := ["senior", "mid"] }

/-- Keyword bucket of the current scorer (src/src/scoring/scorer.ts). -/
def NORTH_AMERICA_KEYWORDS : List String :=
  ["toronto", "canada", "canadian", "vancouver", "montreal", "ottawa",
   "us", "usa", "united states", "new york", "san francisco",
   "seattle", "austin", "boston", "chicago", "denver", "remote"]

/-- Employer-location factor of the current scorer: 0.5 when the location is
absent (or empty, by JavaScript truthiness), 1.0 on any North-America keyword
substring, else 0.0. -/
def getEmployerLocationFactor (location : Option String) : Q :=
  match location with
  | none => mkQ 1 2
  | some l =>
    if l == "" then mkQ 1 2
    else if NORTH_AMERICA_KEYWORDS.any (fun kw => strIncludes (lowerStr l) kw)
    then 1 else 0

/-- Keyword buckets of the scorer variant in src/unnamed/part_011. -/
def CANADA_KEYWORDS : List String :=
  ["toronto", "canada", "canadian", "vancouver", "montreal", "ottawa"]

def US_KEYWORDS : List String :=
  ["us", "usa", "united states", "new york", "san francisco",
   "seattle", "austin", "boston", "chicago", "denver"]

/-- Employer-location factor of the part_011 scorer variant: 1.0 on a Canada
keyword, 0.5 on a US keyword, 0.5 when the location is absent, else 0.0. -/
def getEmployerLocationFactorSplit (location : Option String) : Q :=
  match location with
  | none => mkQ 1 2
  | some l =>
    if l == "" then mkQ 1 2
    else if CANADA_KEYWORDS.any (fun kw => strIncludes (lowerStr l) kw) then 1
    else if US_KEYWORDS.any (fun kw => strIncludes (lowerStr l) kw) then mkQ 1 2
    else 0

/-- The factor computation shared by both scorer versions, parameterized by the
employer-location factor function. -/
def scoreJobWith (employerFactorOf : Option String → Q) (config : ScoringConfig)
    (metadata : JobMetadata) (location : Option String) : ScoreResult :=
  let weights := config.weights
  let remoteFactor : Q := if metadata.remote_eligible then 1 else 0
  let seniorityFactor : Q :=
    if config.target_seniority.contains metadata.seniority then 1
    else if ["lead", "staff"].contains metadata.seniority then mkQ 3 10
    else 0
  let employerFactor := employerFactorOf location
  let interviewFactor :=
    (config.interview_preferences.lookup metadata.interview_style).getD (mkQ 1 2)
  let roleTypeFactor :=
    (config.role_type_preferences.lookup metadata.role_type).getD (mkQ 1 2)
  let breakdown : ScoreBreakdown :=
    { remote := jsToFixed2 (remoteFactor.mul weights.remote_eligible)
      seniority := jsToFixed2 (seniorityFactor.mul weights.seniority_match)
      employer_location :=
        jsToFixed2 (employerFactor.mul weights.employer_location)
      interview_style :=
        jsToFixed2 (interviewFactor.mul weights.interview_style)
      role_type := jsToFixed2 (roleTypeFactor.mul weights.role_type) }
  let rawScore :=
    ((((breakdown.remote.add breakdown.seniority).add
      breakdown.employer_location).add breakdown.interview_style).add
      breakdown.role_type)
  let maxPossible :=
    ((((weights.remote_eligible.add weights.seniority_match).add
      weights.employer_location).add weights.interview_style).add
      weights.role_type)
  { score := jsToFixed2 ((rawScore.div maxPossible).mul 10)
    breakdown := breakdown }

/-- The current scorer (scoreJob in src/src/scoring/scorer.ts). -/
def scoreJob (config : ScoringConfig) (metadata : JobMetadata)
    (location : Option String) : ScoreResult :=
  scoreJobWith getEmployerLocationFactor config metadata location

/-- The scorer variant of src/unnamed/part_011 (Canada/US split geography). -/
def scoreJobSplit (config : ScoringConfig) (metadata : JobMetadata)
    (location : Option String) : ScoreResult :=
  scoreJobWith getEmployerLocationFactorSplit config metadata location

/-- Summary gate (shouldGenerateSummary in summarizer.ts): score at least
5.0. -/
def shouldGenerateSummary (score : Q) : Bool := Q.ble 5 score

example :
    (scoreJob exampleScoringConfig
      ⟨"senior", true, "assignment", "backend", false⟩ (some "Toronto")).score
      = 10 := by decide

example :
    (scoreJob exampleScoringConfig
      ⟨"junior", false, "leetcode", "other", false⟩
      (some "Berlin, Germany")).score = mkQ 3 4 := by decide

/-! ## The jobs table (src/src/db/schema.ts) and its pure state model

The store is the list of rows in insertion order plus the next value of the id
sequence.  Column defaults follow the schema: score defaults to 0,
interviewStyle to unknown, exportStatus to pending, isStale to false,
createdAt and updatedAt to the insertion time.  The score column is numeric;
its value is modelled as an exact rational. -/

/-- One row of the jobs table. -/
structure JobRow where
  id : Nat
  externalId : String
  provider : String
  title : String
  company : String
  link : String
  description : Option String
  location : Option String
  remoteEligible : Bool
  seniority : Option String
  score : Q
  scoreBreakdown : Option ScoreBreakdown
  summary : Option String
  interviewStyle : Option String
  compensation : Option String
  canonicalKey : Option String
  likelyDuplicateOfId : Option Nat
  exportStatus : String
  isStale : Bool
  createdAt : Int
  updatedAt : Int
deriving DecidableEq

/-- The values handed to an insert (NewJob in schema.ts, as produced by
normalizeJobs in the normalizer: likelyDuplicateOfId is never set there, and
the dedup step later writes the flag only to the database row, not to this
in-memory value). -/
structure NewJob where
  externalId : String
  provider : String
  title : String
  company : String
  link : String
  description : Option String := none
  location : Option String := none
  remoteEligible : Bool := false
  compensation : Option String := none
  canonicalKey : Option String := none
  likelyDuplicateOfId : Option Nat := none
deriving DecidableEq

/-- The persisted store: rows in insertion order and the id sequence. -/
structure DBState where
  rows : List JobRow
  nextId : Nat
deriving DecidableEq

/-- Per-source identity test of the unique index on (externalId, provider). -/
def matchesIdentity (job : NewJob) (r : JobRow) : Bool :=
  r.externalId == job.externalId && r.provider == job.provider

/-- The row created by a fresh insert, with the schema column defaults. -/
def rowOfNewJob (id : Nat) (now : Int) (job : NewJob) : JobRow :=
  { id := id
    externalId := job.externalId
    provider := job.provider
    title := job.title
    company := job.company
    link := job.link
    description := job.description
    location := job.location
    remoteEligible := job.remoteEligible
    seniority := none
    score := 0
    scoreBreakdown := none
    summary := none
    interviewStyle := some "unknown"
    compensation := job.compensation
    canonicalKey := job.canonicalKey
    likelyDuplicateOfId := job.likelyDuplicateOfId
    exportStatus := "pending"
    isStale := false
    createdAt := now
    updatedAt := now }

/-- The re-observation refresh (the update branch of insertNewJobs): only the
mutable descriptive fields and updatedAt change. -/
def reobserveRow (now : Int) (job : NewJob) (r : JobRow) : JobRow :=
  { r with
    updatedAt := now
    description := job.description
    compensation := job.compensation
    location := job.location }

/-! ## insertNewJobs (src/unnamed/part_016, lines 163-263)

For each normalized job: an insert-if-absent on (externalId, provider).  On
conflict (re-observation) the mutable fields and updatedAt are refreshed.  On a
fresh insert with a truthy canonicalKey, some stored row sharing that key with
a different id (SELECT ... LIMIT 1 — the query has no ORDER BY and does not
filter on likelyDuplicateOfId, so any matching row is a legal result) becomes
the target of the new row's likelyDuplicateOfId.  insertOne below resolves the
lookup as the first matching row in insertion order; insertOneChoosing keeps
the choice explicit.  The secondary company-and-title-prefix check of the
source only emits a log line and alters no field, so it is not modelled.  The
in-memory job value is returned unchanged in the inserted list; the dedup flag
is written only to the database row. -/

/-- One iteration of the insertNewJobs loop.  Returns the new store state,
whether the row was freshly inserted, and whether it was flagged as a likely
duplicate. -/
def insertOne (now : Int) (s : DBState) (job : NewJob) : DBState × Bool × Bool :=
  if s.rows.any (matchesIdentity job) then
    ({ s with
       rows := s.rows.map (fun r =>
         if matchesIdentity job r then reobserveRow now job r else r) },
     false, false)
  else
    let newRow := rowOfNewJob s.nextId now job
    let rows1 := s.rows ++ [newRow]
    if truthyStr job.canonicalKey then
      match rows1.find? (fun r =>
          r.canonicalKey == job.canonicalKey && !(r.id == newRow.id)) with
      | some ex =>
        ({ rows := rows1.map (fun r =>
             if r.id == newRow.id then
               { r with likelyDuplicateOfId := some ex.id }
             else r)
           nextId := s.nextId + 1 }, true, true)
      | none => ({ rows := rows1, nextId := s.nextId + 1 }, true, false)
    else
      ({ rows := rows1, nextId := s.nextId + 1 }, true, false)

/-- The same iteration with the dedup lookup's unordered SELECT ... LIMIT 1
kept nondeterministic: the WHERE clause selects the candidate rows, and the
choice function picks which of them the database returns (SQL specifies no
order here, so every candidate is a legal result).  insertOne above is this
operation with the first-candidate choice List.head?. -/
def insertOneChoosing (pick : List JobRow → Option JobRow) (now : Int)
    (s : DBState) (job : NewJob) : DBState × Bool × Bool :=
  if s.rows.any (matchesIdentity job) then
    ({ s with
       rows := s.rows.map (fun r =>
         if matchesIdentity job r then reobserveRow now job r else r) },
     false, false)
  else
    let newRow := rowOfNewJob s.nextId now job
    let rows1 := s.rows ++ [newRow]
    if truthyStr job.canonicalKey then
      match pick (rows1.filter (fun r =>
          r.canonicalKey == job.canonicalKey && !(r.id == newRow.id))) with
      | some ex =>
        ({ rows := rows1.map (fun r =>
             if r.id == newRow.id then
               { r with likelyDuplicateOfId := some ex.id }
             else r)
           nextId := s.nextId + 1 }, true, true)
      | none => ({ rows := rows1, nextId := s.nextId + 1 }, true, false)
    else
      ({ rows := rows1, nextId := s.nextId + 1 }, true, false)

/-- Result of insertNewJobs: the new store state, the in-memory list of freshly
inserted jobs (handed on to scoring), and the duplicatesFound counter. -/
structure InsertResult where
  db : DBState
  inserted : List NewJob
  duplicatesFound : Nat
deriving DecidableEq

/-- The insertNewJobs loop over one normalized batch. -/
def insertNewJobs (now : Int) (s : DBState) (batch : List NewJob) : InsertResult :=
  batch.foldl
    (fun acc job =>
      let out := insertOne now acc.db job
      { db := out.1
        inserted := if out.2.1 then acc.inserted ++ [job] else acc.inserted
        duplicatesFound := acc.duplicatesFound + (if out.2.2 then 1 else 0) })
    { db := s, inserted := [], duplicatesFound := 0 }

/-! ## scoreNewJobs (src/unnamed/part_016, lines 265-323)

The metadata-extraction call (analyzeJob) and the summarization call
(generateSummary) are external services, modelled as oracle parameters.  The
per-job tasks run under a concurrency limiter in the source; each task touches
only its own (externalId, provider) row, so the fold below models any
interleaving.  Note that the duplicate guard reads likelyDuplicateOfId from the
in-memory job value. -/

/-- One scoring task.  Returns the new store state and the scored-counter
increment. -/
def scoreOneJob (analyze : String → String → Option String → JobMetadata)
    (summarize : String → String → JobMetadata → Option String)
    (config : ScoringConfig) (s : DBState) (job : NewJob) : DBState × Nat :=
  if truthyId job.likelyDuplicateOfId then (s, 0)
  else if !(truthyStr job.description) then (s, 0)
  else
    let desc := job.description.getD ""
    let metadata := analyze job.title desc job.location
    let result := scoreJob config metadata job.location
    let summary :=
      if shouldGenerateSummary result.score then summarize job.title desc metadata
      else none
    ({ s with
       rows := s.rows.map (fun r =>
         if matchesIdentity job r then
           { r with
             seniority := some metadata.seniority
             interviewStyle := some metadata.interview_style
             score := result.score
             scoreBreakdown := some result.breakdown
             summary := summary
             remoteEligible :=
               if metadata.fromDefaults then r.remoteEligible
               else metadata.remote_eligible }
         else r) }, 1)

/-- The scoring stage over the freshly inserted list, returning the final state
and the scored count. -/
def scoreNewJobs (analyze : String → String → Option String → JobMetadata)
    (summarize : String → String → JobMetadata → Option String)
    (config : ScoringConfig) (s : DBState) (newJobs : List NewJob) :
    DBState × Nat :=
  newJobs.foldl
    (fun acc job =>
      let out := scoreOneJob analyze summarize config acc.1 job
      (out.1, acc.2 + out.2))
    (s, 0)

/-! ## markStaleJobs (src/unnamed/part_016, lines 325-336)

The sweeper sets isStale on rows that are not yet stale and whose updatedAt is
older than the cutoff (now minus 30 days); the cutoff computation itself is
calendar arithmetic on the wall clock and is passed in here as a value. -/

/-- The end-of-run staleness sweep.  Returns the new state and the number of
rows marked. -/
def markStaleJobs (cutoff : Int) (s : DBState) : DBState × Nat :=
  ({ s with
     rows := s.rows.map (fun r =>
       if !r.isStale && decide (r.updatedAt < cutoff) then
         { r with isStale := true }
       else r) },
   (s.rows.filter (fun r => !r.isStale && decide (r.updatedAt < cutoff))).length)

/-! ## queryJobsInterleaved (src/src/db/queries.ts)

Rows are filtered to non-stale, non-duplicate, not actively applied-to records
(plus the optional seniority and export filters), ranked per company by
descending score with ROW_NUMBER, and ordered by that rank and then by
descending score.  SQL leaves the order of score ties unspecified; the model
breaks ties deterministically by id.  The applications table is modelled as a
list; the SQL NOT IN follows the SQL null semantics (a null jobId among the
active applications empties the result). -/

/-- One row of the applications table (only the columns the query reads). -/
structure AppRow where
  jobId : Option Nat
  status : String
deriving DecidableEq

/-- The subquery: jobId of every application whose status is not not_applied
and not rejected. -/
def appliedJobIds (apps : List AppRow) : List (Option Nat) :=
  (apps.filter (fun a => !(a.status == "not_applied" || a.status == "rejected"))).map
    (fun a => a.jobId)

/-- SQL semantics of id NOT IN (subquery) over a nullable column. -/
def notInApplied (id : Nat) (ids : List (Option Nat)) : Bool :=
  !(ids.contains (some id)) && !(ids.contains none)

structure QueryOptions where
  limit : Option Nat := none
  seniority : Option String := none
  unexportedOnly : Bool := false

/-- The WHERE conditions of queryJobsInterleaved (a falsy seniority option adds
no condition, mirroring the JavaScript truthiness test). -/
def passesQueryConditions (apps : List AppRow) (opts : QueryOptions)
    (r : JobRow) : Bool :=
  !r.isStale && r.likelyDuplicateOfId == none
    && notInApplied r.id (appliedJobIds apps)
    && (match opts.seniority with
        | none => true
        | some sv => if sv == "" then true else r.seniority == some sv)
    && (if opts.unexportedOnly then r.exportStatus == "pending" else true)

/-- ROW_NUMBER() OVER (PARTITION BY company ORDER BY score DESC), ties broken
by id. -/
def companyRank (rows : List JobRow) (r : JobRow) : Nat :=
  1 + (rows.filter (fun x => x.company == r.company &&
        (Q.blt r.score x.score || (x.score == r.score && x.id < r.id)))).length

/-- The ORDER BY of the outer query: company rank ascending, then score
descending, ties broken by id. -/
def queryOrder (rows : List JobRow) (a b : JobRow) : Bool :=
  let ra := companyRank rows a
  let rb := companyRank rows b
  ra < rb || (ra == rb &&
    (Q.blt b.score a.score || (a.score == b.score && a.id ≤ b.id)))

/-- The consumer-facing interleaved query (queryJobsInterleaved in
queries.ts).  A falsy limit (absent or zero) returns the full ordered list. -/
def queryJobsInterleaved (apps : List AppRow) (opts : QueryOptions)
    (s : DBState) : List JobRow :=
  let filtered := s.rows.filter (passesQueryConditions apps opts)
  let sorted := filtered.mergeSort (queryOrder filtered)
  match opts.limit with
  | none => sorted
  | some n => if n == 0 then sorted else sorted.take n

/-! ## The pipeline step relation

Every mutation the pipeline performs on the jobs store is one of: an
insert-or-reobserve of a normalized job (insertNewJobs iteration), a scoring
update (scoreNewJobs task), or the staleness sweep.  Jobs entering
insertNewJobs come from normalizeJobs, which never sets likelyDuplicateOfId on
the in-memory value. -/

inductive PipelineStep : DBState → DBState → Prop where
  | insert (s : DBState) (now : Int) (job : NewJob)
      (hjob : job.likelyDuplicateOfId = none) :
      PipelineStep s (insertOne now s job).1
  | score (s : DBState) (analyze : String → String → Option String → JobMetadata)
      (summarize : String → String → JobMetadata → Option String)
      (config : ScoringConfig) (job : NewJob) :
      PipelineStep s (scoreOneJob analyze summarize config s job).1
  | sweep (s : DBState) (cutoff : Int) :
      PipelineStep s (markStaleJobs cutoff s).1

/-! ## Concrete fixtures used by the witnesses and concrete runs -/

/-- A normalized posting from an earlier-tier source (fixture). -/
def jobA : NewJob :=
  { externalId := "gh-1", provider := "greenhouse", title := "Backend Engineer",
    company := "Acme", link := "la", description := some "build services",
    location := some "Toronto", remoteEligible := true,
    canonicalKey := some "kA" }

/-- The same real-world posting as observed by a later-tier source (fixture):
different per-source identity, same canonical key. -/
def jobB : NewJob :=
  { externalId := "rm-9", provider := "remotive", title := "Backend Engineer",
    company := "Acme", link := "lb", description := some "build services now",
    location := some "Remote", remoteEligible := true,
    canonicalKey := some "kA" }

/-- A re-observation of jobA with refreshed descriptive fields (fixture). -/
def jobA2 : NewJob :=
  { jobA with
    description := some "build services v2"
    compensation := some "100k"
    location := some "Toronto, ON" }

/-- The row jobA produces when inserted first, at time 0 with id 1. -/
def rowA : JobRow := rowOfNewJob 1 0 jobA

/-- Store holding only rowA (fixture). -/
def stateA : DBState := ⟨[rowA], 2⟩

/-- Metadata-extraction oracle used by the concrete scoring runs. -/
def oracleAnalyze : String → String → Option String → JobMetadata :=
  fun _ _ _ => ⟨"senior", true, "assignment", "backend", false⟩

/-- Summarization oracle used by the concrete scoring runs (the service may
return null). -/
def oracleSummarize : String → String → JobMetadata → Option String :=
  fun _ _ _ => none

/-- Concrete run for the duplicate-scoring check: insert jobB into the store
already holding its earlier-tier twin rowA, as insertNewJobs does. -/
def dupInsertRun : InsertResult := insertNewJobs 5 stateA [jobB]

/-- The scoring stage over that run, exactly as the orchestrator invokes it on
the inserted list. -/
def dupScoreRun : DBState × Nat :=
  scoreNewJobs oracleAnalyze oracleSummarize exampleScoringConfig
    dupInsertRun.db dupInsertRun.inserted

/-- A stale row fixture (already marked stale at an earlier sweep). -/
def rowStale : JobRow := { rowOfNewJob 3 0 jobA with isStale := true }

/-- A freshly updated row fixture. -/
def rowFresh : JobRow := rowOfNewJob 4 10 jobB

/-- Store fixture for the staleness sweep. -/
def stateSweep : DBState := ⟨[rowStale, rowFresh], 5⟩

/-- A third observation of the same real-world posting from yet another
later-tier source (fixture): new per-source identity, same canonical key. -/
def jobC : NewJob :=
  { externalId := "sp-3", provider := "serpapi", title := "Backend Engineer",
    company := "Acme", link := "lc", description := some "build services again",
    location := some "Remote", remoteEligible := true,
    canonicalKey := some "kA" }

/-- The store after inserting jobA (primary), jobB (flagged duplicate of row
1) and then jobC, where the dedup lookup for jobC returns the last matching
candidate — an SQL-legal result of the un-ordered LIMIT 1, which here is the
already-flagged row 2. -/
def chainState : DBState :=
  (insertOneChoosing List.getLast? 6 (insertOne 5 stateA jobB).1 jobC).1

/-! ## Flatness of the duplicate links -/

/-- Flatness of the duplicate links: a row that is the target of some
likelyDuplicateOfId never has its own likelyDuplicateOfId set (the spec calls
this the optional forest of depth one, guaranteed by construction; the claim
C3 theorem below shows the insert-and-dedup operation does not in fact
guarantee it under the SQL-legal choices of the un-ordered lookup). -/
def FlatDuplicateLinks (s : DBState) : Prop :=
  ∀ r ∈ s.rows, ∀ t ∈ s.rows, t.likelyDuplicateOfId = some r.id →
    r.likelyDuplicateOfId = none

lemma map_eq_self_of_mem {α : Type} {l : List α} {f : α → α}
    (h : ∀ x ∈ l, f x = x) : l.map f = l :=
  (List.map_congr_left h).trans (List.map_id l)

/-- If a list contains a unique element satisfying the predicate, find? returns
exactly it. -/
lemma find?_eq_some_of_unique {α : Type} {p : α → Bool} {l : List α} {a : α}
    (ha : a ∈ l) (hpa : p a = true)
    (huniq : ∀ x ∈ l, p x = true → x = a) :
    l.find? p = some a := by
  induction l with
  | nil => cases ha
  | cons b l ih =>
    cases hpb : p b with
    | false =>
      simp only [List.find?, hpb]
      rcases List.mem_cons.mp ha with rfl | ha2
      · rw [hpa] at hpb
        exact Bool.noConfusion hpb
      · exact ih ha2 (fun x hx hpx => huniq x (List.mem_cons_of_mem b hx) hpx)
    | true =>
      simp only [List.find?, hpb]
      rw [huniq b (List.mem_cons_self b l) hpb]

/-- Left cancellation for string concatenation. -/
lemma strAppend_cancel_left : ∀ {s a b : String}, s ++ a = s ++ b → a = b
  | ⟨sd⟩, ⟨ad⟩, ⟨bd⟩, h => by
    have h2 : sd ++ ad = sd ++ bd := congrArg String.data h
    exact congrArg String.mk (List.append_cancel_left h2)

/-- One hex word renders as exactly 8 characters. -/
lemma toHex8_length (wv : Nat) : (toHex8 wv).length = 8 := by
  simp [toHex8]

/-- The SHA-256 hex digest is always 64 characters long. -/
lemma sha256hex_length (m : List Nat) : (sha256hex m).length = 64 := by
  simp [sha256hex, sha256words, List.flatten, toHex8_length]

/-- For pointwise row updates that keep ids and never clear the stale flag,
stale rows stay stale. -/
lemma stale_mono_map {rows : List JobRow} {f : JobRow → JobRow}
    (hid : ∀ r, (f r).id = r.id)
    (hst : ∀ r, r.isStale = true → (f r).isStale = true) :
    ∀ r ∈ rows, r.isStale = true →
      ∃ r2 ∈ rows.map f, r2.id = r.id ∧ r2.isStale = true :=
  fun r hr hs => ⟨f r, List.mem_map_of_mem f hr, hid r, hst r hs⟩

/-- No pipeline operation ever clears the stale flag: every stale row is still
present (same id) and still stale after any step. -/
lemma stale_monotone_step {s1 s2 : DBState} (hstep : PipelineStep s1 s2) :
    ∀ r ∈ s1.rows, r.isStale = true →
      ∃ r2 ∈ s2.rows, r2.id = r.id ∧ r2.isStale = true := by
  cases hstep with
  | insert now job hjob =>
    by_cases hany : s1.rows.any (matchesIdentity job) = true
    · intro r hr hs
      have h := stale_mono_map
        (f := fun r => if matchesIdentity job r then reobserveRow now job r else r)
        (fun r => by by_cases h : matchesIdentity job r = true <;> simp [h, reobserveRow])
        (fun r hsr => by by_cases h : matchesIdentity job r = true <;> simp [h, reobserveRow, hsr])
        r hr hs
      simpa [insertOne, hany] using h
    · have hany2 : s1.rows.any (matchesIdentity job) = false := by
        cases h : s1.rows.any (matchesIdentity job)
        · rfl
        · exact absurd h hany
      intro r hr hs
      simp only [insertOne, hany2, Bool.false_eq_true, if_false]
      split
      · split
        · exact stale_mono_map
            (fun x => by
              by_cases h : (x.id == (rowOfNewJob s1.nextId now job).id) = true <;> simp [h])
            (fun x hsx => by
              by_cases h : (x.id == (rowOfNewJob s1.nextId now job).id) = true <;> simp [h, hsx])
            r (List.mem_append_left _ hr) hs
        · exact ⟨r, List.mem_append_left _ hr, rfl, hs⟩
      · exact ⟨r, List.mem_append_left _ hr, rfl, hs⟩
  | score analyze summarize config job =>
    intro r hr hs
    rw [scoreOneJob]
    split
    · exact ⟨r, hr, rfl, hs⟩
    · split
      · exact ⟨r, hr, rfl, hs⟩
      · exact stale_mono_map
          (fun r => by by_cases h : matchesIdentity job r = true <;> simp [h])
          (fun r hsr => by by_cases h : matchesIdentity job r = true <;> simp [h, hsr])
          r hr hs
  | sweep cutoff =>
    intro r hr hs
    exact stale_mono_map
      (fun r => by
        by_cases h : (!r.isStale && decide (r.updatedAt < cutoff)) = true <;> simp [markStaleJobs, h])
      (fun r hsr => by
        by_cases h : (!r.isStale && decide (r.updatedAt < cutoff)) = true <;> simp [markStaleJobs, h, hsr])
      r hr hs

/-- Claim C1 helper is below; first the filter claim.  C4: exclusion always
wins over inclusion in passesRoleFilter: if any exclude-list keyword matches
the title as a case-insensitive substring the filter rejects regardless of
include matches, and otherwise it accepts exactly when some include-list
keyword matches. -/
theorem passesRoleFilter_exclusion_wins (job : RawJob) (filters : FiltersConfig) :
    (filters.exclude_titles.any
        (fun kw => strIncludes (lowerStr job.title) (lowerStr kw)) = true →
      passesRoleFilter job filters = false) ∧
    (filters.exclude_titles.any
        (fun kw => strIncludes (lowerStr job.title) (lowerStr kw)) = false →
      (passesRoleFilter job filters = true ↔
        filters.include_titles.any
          (fun kw => strIncludes (lowerStr job.title) (lowerStr kw)) = true)) := by
  constructor
  · intro h
    simp [passesRoleFilter, h]
  · intro h
    simp [passesRoleFilter, h]

/-- Witness for C4 at the example of the spec: the title Frontend Software
Engineer matches the exclude keyword frontend, so the filter rejects it even
though software and engineer are include keywords. -/
theorem passesRoleFilter_exclusion_wins_witness :
    (["frontend"].any (fun kw =>
        strIncludes (lowerStr "Frontend Software Engineer") (lowerStr kw)) = true) ∧
    passesRoleFilter
      { externalId := "x", title := "Frontend Software Engineer",
        company := "c", link := "l" }
      { exclude_titles := ["frontend"],
        include_titles := ["software", "engineer"] } = false :=
  ⟨by decide,
    (passesRoleFilter_exclusion_wins
      { externalId := "x", title := "Frontend Software Engineer",
        company := "c", link := "l" }
      { exclude_titles := ["frontend"],
        include_titles := ["software", "engineer"] }).1 (by decide)⟩

/-- Claim C9: under the example weight set (remote 3.0, seniority 2.5,
employer_location 1.5, interview_style 1.5, role_type 1.5), fully matching
metadata at a home-geography location scores exactly 10.00, and metadata with
zero remote, seniority and interview factors at a non-matching geography with
an unknown role type scores exactly 0.75 (the role-type default factor 0.5
contribution alone, not zero).  Both scorer versions in the sources
(src/src/scoring/scorer.ts and the src/unnamed/part_011 variant) agree on
these inputs. -/
theorem scoreJob_boundary_values :
    (scoreJob exampleScoringConfig
      ⟨"senior", true, "assignment", "backend", false⟩ (some "Toronto")).score
        = 10 ∧
    (scoreJob exampleScoringConfig
      ⟨"junior", false, "leetcode", "other", false⟩ (some "Berlin, Germany")).score
        = mkQ 3 4 ∧
    (scoreJob exampleScoringConfig
      ⟨"junior", false, "leetcode", "other", false⟩ (some "Berlin, Germany")).breakdown
        = ⟨0, 0, 0, 0, mkQ 3 4⟩ ∧
    (scoreJobSplit exampleScoringConfig
      ⟨"senior", true, "assignment", "backend", false⟩ (some "Toronto")).score
        = 10 ∧
    (scoreJobSplit exampleScoringConfig
      ⟨"junior", false, "leetcode", "other", false⟩ (some "Berlin, Germany")).score
        = mkQ 3 4 := by
  decide

/-- Counterexample to claim C5: two different descriptions that agree after
the fingerprint normalization (here differing only in letter case) produce the
same canonical key for the same company and title. -/
theorem buildCanonicalKey_differing_descriptions_collide :
    (some "Agile" : Option String) ≠ some "agile" ∧
    buildCanonicalKey "c" "t" (some "Agile")
      = buildCanonicalKey "c" "t" (some "agile") := by
  constructor
  · decide
  · have h : descNormalize "Agile" = descNormalize "agile" := by decide
    simp only [buildCanonicalKey, descriptionFingerprint]
    rw [show (("Agile" : String) == "") = false from by decide,
      show (("agile" : String) == "") = false from by decide]
    simp only [Bool.false_eq_true, if_false, h]

/-- Claim C5 as amended: buildCanonicalKey is a pure deterministic function of
company, title and description; with equal company and title, two inputs
produce equal keys exactly when their description fingerprints are equal (so
differing descriptions yield differing keys only when their fingerprints
differ); an absent description always contributes the sentinel fingerprint
segment nodesc. -/
theorem buildCanonicalKey_deterministic_fingerprint :
    (∀ c1 c2 t1 t2 d1 d2, c1 = c2 → t1 = t2 → d1 = d2 →
      buildCanonicalKey c1 t1 d1 = buildCanonicalKey c2 t2 d2) ∧
    (∀ c t d1 d2, buildCanonicalKey c t d1 = buildCanonicalKey c t d2 ↔
      descriptionFingerprint d1 = descriptionFingerprint d2) ∧
    descriptionFingerprint none = "nodesc" := by
  refine ⟨?_, ?_, rfl⟩
  · intro c1 c2 t1 t2 d1 d2 hc ht hd
    rw [hc, ht, hd]
  · intro c t d1 d2
    constructor
    · intro h
      exact strAppend_cancel_left h
    · intro h
      rw [buildCanonicalKey, buildCanonicalKey, h]

/-- Witness for C5 as amended: with equal company and title and equal
fingerprints the keys agree, evaluated at a concrete input. -/
theorem buildCanonicalKey_deterministic_fingerprint_witness :
    buildCanonicalKey "Acme" "Dev" none = buildCanonicalKey "Acme" "Dev" none :=
  buildCanonicalKey_deterministic_fingerprint.1 "Acme" "Acme" "Dev" "Dev"
    none none rfl rfl rfl

/-- Counterexample to claim C6: two postings with no description receive the
very same fingerprint segment (the sentinel constant), so their fingerprint
segments are equal, not distinct. -/
theorem descriptionFingerprint_descriptionless_equal :
    descriptionFingerprint none = descriptionFingerprint none ∧
    descriptionFingerprint none = "nodesc" :=
  ⟨rfl, rfl⟩

/-- Claim C6 as amended: all descriptionless postings share the one sentinel
fingerprint segment nodesc (so any two of them fingerprint-match), and the
sentinel never equals the fingerprint of a posting with a non-empty
description (those are 12-character hex digests, the sentinel has 6
characters). -/
theorem descriptionFingerprint_sentinel (d : String) (hd : d ≠ "") :
    descriptionFingerprint none = "nodesc" ∧
    descriptionFingerprint (some d) ≠ "nodesc" := by
  refine ⟨rfl, ?_⟩
  have hdb : (d == "") = false := by
    cases h : d == ""
    · rfl
    · exact absurd (by simpa using h) hd
  rw [descriptionFingerprint, hdb]
  simp only [Bool.false_eq_true, if_false]
  intro hcon
  have hlen := congrArg (fun s => s.data.length) hcon
  have h12 : ((sha256hex (utf8Bytes (descNormalize d))).take 12).length = 12 := by
    rw [List.length_take, sha256hex_length]
    decide
  have h6 : ("nodesc" : String).data.length = 6 := by decide
  simp only [String.mk] at hlen
  rw [h6] at hlen
  have : ((sha256hex (utf8Bytes (descNormalize d))).take 12).length = 6 := hlen
  rw [h12] at this
  exact absurd this (by decide)

/-- Witness for C6 as amended at a concrete non-empty description. -/
theorem descriptionFingerprint_sentinel_witness :
    ("x" : String) ≠ "" ∧
    (descriptionFingerprint none = "nodesc" ∧
      descriptionFingerprint (some "x") ≠ "nodesc") :=
  ⟨by decide, descriptionFingerprint_sentinel "x" (by decide)⟩

/-- Claim C7: re-observation idempotence and frame.  When a posting with an
already-present (externalId, provider) identity is ingested, no second row is
created (the row count and the id sequence are unchanged and the job is not
counted as freshly inserted); the store becomes the pointwise refresh of the
matching rows, and that refresh touches only description, compensation,
location and updatedAt — id, identity, content, scoring fields, canonicalKey,
duplicate link, export state, staleness and createdAt are all left exactly as
they were, so identity and dedup linkage are never re-evaluated. -/
theorem insertOne_reobservation_frame (now : Int) (s : DBState) (job : NewJob)
    (hexists : s.rows.any (matchesIdentity job) = true) :
    (insertOne now s job).1.nextId = s.nextId ∧
    (insertOne now s job).1.rows.length = s.rows.length ∧
    (insertOne now s job).2.1 = false ∧
    (insertOne now s job).1.rows = s.rows.map (fun r =>
      if matchesIdentity job r then reobserveRow now job r else r) ∧
    (∀ r : JobRow,
      (reobserveRow now job r).id = r.id ∧
      (reobserveRow now job r).externalId = r.externalId ∧
      (reobserveRow now job r).provider = r.provider ∧
      (reobserveRow now job r).title = r.title ∧
      (reobserveRow now job r).company = r.company ∧
      (reobserveRow now job r).link = r.link ∧
      (reobserveRow now job r).remoteEligible = r.remoteEligible ∧
      (reobserveRow now job r).seniority = r.seniority ∧
      (reobserveRow now job r).score = r.score ∧
      (reobserveRow now job r).scoreBreakdown = r.scoreBreakdown ∧
      (reobserveRow now job r).summary = r.summary ∧
      (reobserveRow now job r).interviewStyle = r.interviewStyle ∧
      (reobserveRow now job r).canonicalKey = r.canonicalKey ∧
      (reobserveRow now job r).likelyDuplicateOfId = r.likelyDuplicateOfId ∧
      (reobserveRow now job r).exportStatus = r.exportStatus ∧
      (reobserveRow now job r).isStale = r.isStale ∧
      (reobserveRow now job r).createdAt = r.createdAt ∧
      (reobserveRow now job r).description = job.description ∧
      (reobserveRow now job r).compensation = job.compensation ∧
      (reobserveRow now job r).location = job.location ∧
      (reobserveRow now job r).updatedAt = now) := by
  refine ⟨?_, ?_, ?_, ?_, ?_⟩ <;>
    simp [insertOne, hexists, reobserveRow]

/-- Witness for C7: re-observing jobA (as jobA2, with refreshed descriptive
fields) in the store that already holds its row. -/
theorem insertOne_reobservation_frame_witness :
    stateA.rows.any (matchesIdentity jobA2) = true ∧
    ((insertOne 7 stateA jobA2).1.nextId = stateA.nextId ∧
      (insertOne 7 stateA jobA2).1.rows.length = stateA.rows.length ∧
      (insertOne 7 stateA jobA2).2.1 = false) :=
  ⟨by decide,
    ⟨(insertOne_reobservation_frame 7 stateA jobA2 (by decide)).1,
      (insertOne_reobservation_frame 7 stateA jobA2 (by decide)).2.1,
      (insertOne_reobservation_frame 7 stateA jobA2 (by decide)).2.2.1⟩⟩

/-- Claim C10: fallback scoring preserves the inferred remote flag.  For a
non-duplicate job with a truthy description, the scoring update writes score,
scoreBreakdown, seniority, interviewStyle and summary on the matching row, but
remoteEligible is overwritten with the extracted value only when the metadata
did not come from the conservative fallback (fromDefaults); on fallback the
row keeps its normalizer-inferred remoteEligible.  Identity, dedup linkage and
staleness are untouched either way. -/
theorem scoreOneJob_fallback_preserves_remote
    (analyze : String → String → Option String → JobMetadata)
    (summarize : String → String → JobMetadata → Option String)
    (config : ScoringConfig) (s : DBState) (job : NewJob)
    (metadata : JobMetadata)
    (hmd : metadata = analyze job.title (job.description.getD "") job.location)
    (hdup : job.likelyDuplicateOfId = none)
    (hdesc : truthyStr job.description = true) :
    ∀ r ∈ s.rows, matchesIdentity job r = true →
      ∃ r2 ∈ (scoreOneJob analyze summarize config s job).1.rows,
        r2.id = r.id ∧
        r2.remoteEligible = (if metadata.fromDefaults then r.remoteEligible
          else metadata.remote_eligible) ∧
        r2.score = (scoreJob config metadata job.location).score ∧
        r2.scoreBreakdown = some (scoreJob config metadata job.location).breakdown ∧
        r2.seniority = some metadata.seniority ∧
        r2.interviewStyle = some metadata.interview_style ∧
        r2.summary = (if shouldGenerateSummary (scoreJob config metadata job.location).score
          then summarize job.title (job.description.getD "") metadata else none) ∧
        r2.canonicalKey = r.canonicalKey ∧
        r2.likelyDuplicateOfId = r.likelyDuplicateOfId ∧
        r2.isStale = r.isStale ∧
        r2.updatedAt = r.updatedAt := by
  intro r hr hmatch
  rw [scoreOneJob, hdup]
  simp only [truthyId, Bool.false_eq_true, if_false, hdesc, Bool.not_true]
  refine ⟨_, List.mem_map_of_mem _ hr, ?_⟩
  rw [hmatch, ← hmd]
  by_cases hfd : metadata.fromDefaults = true <;>
    by_cases hsg : shouldGenerateSummary (scoreJob config metadata job.location).score = true <;>
      simp [hfd, hsg]

/-- Witness for C10: scoring jobB (fresh, non-duplicate, with description) in
a store holding only its own row; the oracle metadata is not from defaults, so
remoteEligible is overwritten with the extracted value. -/
theorem scoreOneJob_fallback_preserves_remote_witness :
    ((⟨"senior", true, "assignment", "backend", false⟩ : JobMetadata)
        = oracleAnalyze jobB.title (jobB.description.getD "") jobB.location) ∧
    jobB.likelyDuplicateOfId = none ∧
    truthyStr jobB.description = true ∧
    rowOfNewJob 1 0 jobB ∈ (⟨[rowOfNewJob 1 0 jobB], 2⟩ : DBState).rows ∧
    matchesIdentity jobB (rowOfNewJob 1 0 jobB) = true ∧
    (∃ r2 ∈ (scoreOneJob oracleAnalyze oracleSummarize exampleScoringConfig
        ⟨[rowOfNewJob 1 0 jobB], 2⟩ jobB).1.rows,
      r2.id = (rowOfNewJob 1 0 jobB).id ∧
      r2.remoteEligible = (if (⟨"senior", true, "assignment", "backend", false⟩ : JobMetadata).fromDefaults
        then (rowOfNewJob 1 0 jobB).remoteEligible
        else (⟨"senior", true, "assignment", "backend", false⟩ : JobMetadata).remote_eligible) ∧
      r2.score = (scoreJob exampleScoringConfig
        ⟨"senior", true, "assignment", "backend", false⟩ jobB.location).score ∧
      r2.scoreBreakdown = some (scoreJob exampleScoringConfig
        ⟨"senior", true, "assignment", "backend", false⟩ jobB.location).breakdown ∧
      r2.seniority = some (⟨"senior", true, "assignment", "backend", false⟩ : JobMetadata).seniority ∧
      r2.interviewStyle = some (⟨"senior", true, "assignment", "backend", false⟩ : JobMetadata).interview_style ∧
      r2.summary = (if shouldGenerateSummary (scoreJob exampleScoringConfig
          ⟨"senior", true, "assignment", "backend", false⟩ jobB.location).score
        then oracleSummarize jobB.title (jobB.description.getD "")
          ⟨"senior", true, "assignment", "backend", false⟩ else none) ∧
      r2.canonicalKey = (rowOfNewJob 1 0 jobB).canonicalKey ∧
      r2.likelyDuplicateOfId = (rowOfNewJob 1 0 jobB).likelyDuplicateOfId ∧
      r2.isStale = (rowOfNewJob 1 0 jobB).isStale ∧
      r2.updatedAt = (rowOfNewJob 1 0 jobB).updatedAt) :=
  ⟨by decide, by decide, by decide, by decide, by decide,
    scoreOneJob_fallback_preserves_remote oracleAnalyze oracleSummarize
      exampleScoringConfig ⟨[rowOfNewJob 1 0 jobB], 2⟩ jobB
      ⟨"senior", true, "assignment", "backend", false⟩
      (by decide) (by decide) (by decide)
      (rowOfNewJob 1 0 jobB) (by decide) (by decide)⟩

/-- Claim C2 (code behavior at the failing input): in the very run in which
the dedup step flags jobB as a likely duplicate of row 1 (duplicatesFound is
1 and the stored row has the link), the scoring stage still scores it — the
scored count is 1, and the flagged row ends up with score, breakdown,
seniority and interview style written.  The duplicate guard in scoreNewJobs
reads likelyDuplicateOfId from the in-memory inserted value, which the dedup
update never sets (it only updates the database row), so the guard never
fires for duplicates flagged in the same run. -/
theorem scoreNewJobs_scores_flagged_duplicate :
    dupInsertRun.duplicatesFound = 1 ∧
    dupInsertRun.inserted = [jobB] ∧
    (dupInsertRun.db.rows.find? (fun r => r.id == 2)).map
      (fun r => r.likelyDuplicateOfId) = some (some 1) ∧
    dupScoreRun.2 = 1 ∧
    (dupScoreRun.1.rows.find? (fun r => r.id == 2)).map
      (fun r => (r.likelyDuplicateOfId, r.scoreBreakdown.isSome, r.score,
        r.seniority, r.interviewStyle))
      = some (some 1, true, 10, some "senior", some "assignment") := by
  decide

/-- Claim C8: the staleness sweep is correct and monotone.  After
markStaleJobs with a given cutoff, the store has the same rows (same count),
and each row is stale exactly when it already was or its updatedAt lies before
the cutoff (the 30-day retention window boundary computed by the
orchestrator); a row updated at or after the cutoff is left completely
untouched.  Moreover no pipeline operation ever clears the stale flag (stale
rows stay stale, with their id, across every step), and stale rows never
appear in the interleaved consumer query. -/
theorem markStaleJobs_sweep_properties (cutoff : Int) (s : DBState) :
    (markStaleJobs cutoff s).1.rows.length = s.rows.length ∧
    (markStaleJobs cutoff s).1.nextId = s.nextId ∧
    (∀ r ∈ s.rows, ∃ r2 ∈ (markStaleJobs cutoff s).1.rows,
      r2.id = r.id ∧
      r2.isStale = (r.isStale || decide (r.updatedAt < cutoff)) ∧
      (cutoff ≤ r.updatedAt → r2 = r)) ∧
    (∀ s1 s2 : DBState, PipelineStep s1 s2 →
      ∀ r ∈ s1.rows, r.isStale = true →
        ∃ r2 ∈ s2.rows, r2.id = r.id ∧ r2.isStale = true) ∧
    (∀ apps opts r, r ∈ queryJobsInterleaved apps opts s → r.isStale = false) := by
  refine ⟨?_, ?_, ?_, ?_, ?_⟩
  · simp [markStaleJobs]
  · simp [markStaleJobs]
  · intro r hr
    refine ⟨_, List.mem_map_of_mem _ hr, ?_⟩
    by_cases hs : r.isStale = true
    · have hg : (!r.isStale && decide (r.updatedAt < cutoff)) = false := by
        simp [hs]
      refine ⟨by simp [hg], by simp [hg, hs], fun _ => by simp [hg]⟩
    · have hs2 : r.isStale = false := by
        cases h : r.isStale
        · rfl
        · exact absurd h hs
      by_cases hc : r.updatedAt < cutoff
      · have hg : (!r.isStale && decide (r.updatedAt < cutoff)) = true := by
          simp [hs2, hc]
        refine ⟨by simp [hg], by simp [hg, hs2, hc], fun hge => ?_⟩
        exact absurd hc (by omega)
      · have hg : (!r.isStale && decide (r.updatedAt < cutoff)) = false := by
          simp [hs2, hc]
        refine ⟨by simp [hg], by simp [hg, hs2, hc], fun _ => by simp [hg]⟩
  · intro s1 s2 hstep
    exact stale_monotone_step hstep
  · intro apps opts r hr
    have hr2 : r ∈ (s.rows.filter (passesQueryConditions apps opts)).mergeSort
        (queryOrder (s.rows.filter (passesQueryConditions apps opts))) := by
      rcases opts with ⟨lim, sen, unexp⟩
      rw [queryJobsInterleaved] at hr
      cases lim with
      | none => exact hr
      | some n =>
        have hr3 : r ∈ (if (n == 0) = true then
            (s.rows.filter (passesQueryConditions apps ⟨some n, sen, unexp⟩)).mergeSort
              (queryOrder (s.rows.filter (passesQueryConditions apps ⟨some n, sen, unexp⟩)))
          else
            ((s.rows.filter (passesQueryConditions apps ⟨some n, sen, unexp⟩)).mergeSort
              (queryOrder (s.rows.filter
                (passesQueryConditions apps ⟨some n, sen, unexp⟩)))).take n) := hr
        by_cases hz : (n == 0) = true
        · rw [if_pos hz] at hr3
          exact hr3
        · rw [if_neg hz] at hr3
          exact List.mem_of_mem_take hr3
    have hmem := List.mem_mergeSort.mp hr2
    have hpass := (List.mem_filter.mp hmem).2
    rw [passesQueryConditions, Bool.and_eq_true, Bool.and_eq_true,
      Bool.and_eq_true, Bool.and_eq_true] at hpass
    obtain ⟨⟨⟨⟨hstale, _⟩, _⟩, _⟩, _⟩ := hpass
    cases h : r.isStale
    · rfl
    · rw [h] at hstale
      exact Bool.noConfusion hstale

/-- Witness for C8 at a concrete store and cutoff: the fresh row (updated at
time 10, cutoff 5) is untouched by the sweep. -/
theorem markStaleJobs_sweep_properties_witness :
    rowFresh ∈ stateSweep.rows ∧
    (∃ r2 ∈ (markStaleJobs 5 stateSweep).1.rows,
      r2.id = rowFresh.id ∧
      r2.isStale = (rowFresh.isStale || decide (rowFresh.updatedAt < 5)) ∧
      ((5 : Int) ≤ rowFresh.updatedAt → r2 = rowFresh)) :=
  ⟨by decide,
    (markStaleJobs_sweep_properties 5 stateSweep).2.2.1 rowFresh (by decide)⟩

/-- Claim C1: cross-source soft dedup end to end.  If the store holds exactly
one row A carrying canonical key k (a primary, with no duplicate link), and a
fresh posting B arrives with a new (externalId, provider) identity but the
same canonical key, then after the insert the new row persists with
likelyDuplicateOfId equal to A.id, A itself is still stored unchanged with a
null duplicate link, and the interleaved consumer query returns A but not the
new row. -/
theorem crossSource_dedup_end_to_end
    (s : DBState) (now : Int) (A : JobRow) (B : NewJob) (k : String)
    (apps : List AppRow)
    (hwf : ∀ r ∈ s.rows, r.id < s.nextId)
    (hA : A ∈ s.rows) (hAkey : A.canonicalKey = some k)
    (hAdup : A.likelyDuplicateOfId = none)
    (hAonly : ∀ r ∈ s.rows, r.canonicalKey = some k → r = A)
    (hBfresh : ∀ r ∈ s.rows, matchesIdentity B r = false)
    (hBkey : B.canonicalKey = some k) (hk : k ≠ "")
    (hAactive : A.isStale = false)
    (hAapp : notInApplied A.id (appliedJobIds apps) = true) :
    ∃ b ∈ (insertOne now s B).1.rows,
      b.id = s.nextId ∧ b.externalId = B.externalId ∧ b.provider = B.provider ∧
      b.likelyDuplicateOfId = some A.id ∧
      A ∈ (insertOne now s B).1.rows ∧
      A ∈ queryJobsInterleaved apps ⟨none, none, false⟩ (insertOne now s B).1 ∧
      b ∉ queryJobsInterleaved apps ⟨none, none, false⟩ (insertOne now s B).1 := by
  have hany : s.rows.any (matchesIdentity B) = false := by
    cases h : s.rows.any (matchesIdentity B)
    · rfl
    · rcases List.any_eq_true.mp h with ⟨x, hx, hpx⟩
      rw [hBfresh x hx] at hpx
      exact Bool.noConfusion hpx
  have hne : ∀ r ∈ s.rows, (r.id == (rowOfNewJob s.nextId now B).id) = false := by
    intro r hr
    have : r.id ≠ s.nextId := Nat.ne_of_lt (hwf r hr)
    simpa [rowOfNewJob] using this
  have htr : truthyStr B.canonicalKey = true := by
    rw [hBkey]
    simpa [truthyStr] using hk
  have hfind : (s.rows ++ [rowOfNewJob s.nextId now B]).find?
      (fun r => r.canonicalKey == B.canonicalKey
        && !(r.id == (rowOfNewJob s.nextId now B).id)) = some A := by
    apply find?_eq_some_of_unique (List.mem_append_left _ hA)
    · rw [hBkey]
      simp [hAkey, hne A hA]
    · intro x hx hpx
      rcases List.mem_append.mp hx with hx2 | hx2
      · rw [Bool.and_eq_true] at hpx
        apply hAonly x hx2
        rw [hBkey] at hpx
        simpa using hpx.1
      · rcases List.mem_singleton.mp hx2 with rfl
        simp at hpx
  simp only [insertOne, hany, Bool.false_eq_true, if_false]
  split
  · split
    · rename_i ex heq
      rw [hfind] at heq
      injection heq with heq2
      subst heq2
      have hmap : (s.rows ++ [rowOfNewJob s.nextId now B]).map
          (fun r => if r.id == (rowOfNewJob s.nextId now B).id then
            { r with likelyDuplicateOfId := some A.id } else r)
          = s.rows ++
            [{ rowOfNewJob s.nextId now B with
                likelyDuplicateOfId := some A.id }] := by
        rw [List.map_append]
        congr 1
        · exact map_eq_self_of_mem (fun x hx => by rw [hne x hx]; rfl)
        · simp
      rw [hmap]
      refine ⟨{ rowOfNewJob s.nextId now B with likelyDuplicateOfId := some A.id },
        List.mem_append_right _ (List.mem_singleton_self _),
        rfl, rfl, rfl, rfl, List.mem_append_left _ hA, ?_, ?_⟩
      · rw [show queryJobsInterleaved apps ⟨none, none, false⟩
            ⟨s.rows ++ [{ rowOfNewJob s.nextId now B with likelyDuplicateOfId := some A.id }], s.nextId + 1⟩
            = ((s.rows ++ [{ rowOfNewJob s.nextId now B with likelyDuplicateOfId := some A.id }]).filter
                (passesQueryConditions apps ⟨none, none, false⟩)).mergeSort
              (queryOrder ((s.rows ++ [{ rowOfNewJob s.nextId now B with likelyDuplicateOfId := some A.id }]).filter
                (passesQueryConditions apps ⟨none, none, false⟩))) from rfl]
        rw [List.mem_mergeSort]
        apply List.mem_filter.mpr
        refine ⟨List.mem_append_left _ hA, ?_⟩
        simp [passesQueryConditions, hAactive, hAdup, hAapp]
      · intro hbq
        rw [show queryJobsInterleaved apps ⟨none, none, false⟩
            ⟨s.rows ++ [{ rowOfNewJob s.nextId now B with likelyDuplicateOfId := some A.id }], s.nextId + 1⟩
            = ((s.rows ++ [{ rowOfNewJob s.nextId now B with likelyDuplicateOfId := some A.id }]).filter
                (passesQueryConditions apps ⟨none, none, false⟩)).mergeSort
              (queryOrder ((s.rows ++ [{ rowOfNewJob s.nextId now B with likelyDuplicateOfId := some A.id }]).filter
                (passesQueryConditions apps ⟨none, none, false⟩))) from rfl] at hbq
        rw [List.mem_mergeSort] at hbq
        have hpass := (List.mem_filter.mp hbq).2
        simp [passesQueryConditions] at hpass
    · rename_i heq
      rw [hfind] at heq
      exact Option.noConfusion heq
  · rename_i htr2
    rw [htr] at htr2
    exact absurd rfl htr2

/-- Witness for C1 at concrete data: store holding only rowA (key kA,
primary), inserting jobB (different identity from another source, same key). -/
theorem crossSource_dedup_end_to_end_witness :
    (∀ r ∈ stateA.rows, r.id < stateA.nextId) ∧
    rowA ∈ stateA.rows ∧
    rowA.canonicalKey = some "kA" ∧
    rowA.likelyDuplicateOfId = none ∧
    (∀ r ∈ stateA.rows, r.canonicalKey = some "kA" → r = rowA) ∧
    (∀ r ∈ stateA.rows, matchesIdentity jobB r = false) ∧
    jobB.canonicalKey = some "kA" ∧
    ("kA" : String) ≠ "" ∧
    rowA.isStale = false ∧
    notInApplied rowA.id (appliedJobIds []) = true ∧
    (∃ b ∈ (insertOne 5 stateA jobB).1.rows,
      b.id = stateA.nextId ∧ b.externalId = jobB.externalId ∧
      b.provider = jobB.provider ∧
      b.likelyDuplicateOfId = some rowA.id ∧
      rowA ∈ (insertOne 5 stateA jobB).1.rows ∧
      rowA ∈ queryJobsInterleaved [] ⟨none, none, false⟩ (insertOne 5 stateA jobB).1 ∧
      b ∉ queryJobsInterleaved [] ⟨none, none, false⟩ (insertOne 5 stateA jobB).1) :=
  ⟨by decide, by decide, by decide, by decide, by decide, by decide, by decide,
    by decide, by decide, by decide,
    crossSource_dedup_end_to_end stateA 5 rowA jobB "kA" []
      (by decide) (by decide) (by decide) (by decide) (by decide) (by decide)
      (by decide) (by decide) (by decide) (by decide)⟩


/-- Finding the first match equals taking the head of the filtered list. -/
lemma find?_eq_head_filter {α : Type} (p : α → Bool) :
    ∀ l : List α, l.find? p = (l.filter p).head?
  | [] => rfl
  | a :: l => by
    have h1 : List.find? p (a :: l)
        = (match p a with | true => some a | false => List.find? p l) := rfl
    have h2 : List.filter p (a :: l)
        = (match p a with | true => a :: List.filter p l | false => List.filter p l) := rfl
    rw [h1, h2]
    cases p a
    · exact find?_eq_head_filter p l
    · rfl

/-- insertOne is exactly insertOneChoosing with the first-candidate choice:
the deterministic model used by the other theorems picks the first matching
row in insertion order among the SQL-legal candidates. -/
lemma insertOne_is_first_choice (now : Int) (s : DBState) (job : NewJob) :
    insertOne now s job = insertOneChoosing List.head? now s job := by
  unfold insertOne insertOneChoosing
  simp only [find?_eq_head_filter]

/-- Claim C3 (code behavior at the failing input): the insert-and-dedup
operation does not guarantee the flat forest.  Starting from the store the
dedup itself builds — row 1 the primary for key kA and row 2 flagged with
likelyDuplicateOfId = 1 — inserting a third record with key kA runs the dedup
lookup over the candidate set containing both rows 1 and 2 (the SELECT has no
ORDER BY and no likelyDuplicateOfId filter, so either row is a legal LIMIT 1
result, and insertOne is merely the first-candidate determinization of that
choice).  Under the equally legal last-candidate choice the new row is linked
to the flagged row 2, producing the chain 3 → 2 → 1: a record with
likelyDuplicateOfId set is itself the target of another record's link, so the
claimed invariant fails. -/
theorem sql_choice_breaks_flat_forest :
    ((insertOne 5 stateA jobB).1.rows.map
      (fun r => (r.id, r.likelyDuplicateOfId)) = [(1, none), (2, some 1)]) ∧
    (insertOne 6 (insertOne 5 stateA jobB).1 jobC
      = insertOneChoosing List.head? 6 (insertOne 5 stateA jobB).1 jobC) ∧
    ((((insertOne 5 stateA jobB).1.rows
        ++ [rowOfNewJob (insertOne 5 stateA jobB).1.nextId 6 jobC]).filter
        (fun r => r.canonicalKey == jobC.canonicalKey
          && !(r.id == (rowOfNewJob (insertOne 5 stateA jobB).1.nextId 6 jobC).id))).map
      (fun r => r.id) = [1, 2]) ∧
    (chainState.rows.map (fun r => (r.id, r.likelyDuplicateOfId))
      = [(1, none), (2, some 1), (3, some 2)]) ∧
    ¬ FlatDuplicateLinks chainState := by
  refine ⟨by decide, insertOne_is_first_choice 6 (insertOne 5 stateA jobB).1 jobC,
    by decide, by decide, ?_⟩
  intro hflat
  have h2 : ({ rowOfNewJob 2 5 jobB with likelyDuplicateOfId := some 1 } : JobRow)
      ∈ chainState.rows := by decide
  have h3 : ({ rowOfNewJob 3 6 jobC with likelyDuplicateOfId := some 2 } : JobRow)
      ∈ chainState.rows := by decide
  have := hflat _ h2 _ h3 (by decide)
  exact absurd this (by decide)
